import Mathlib

/-!
A shallow embedding of the generic_control_toolbox library
(include/generic_control_toolbox/controller_template.hpp and
src/wrench_manager.cpp), together with theorems about its behaviour.

Machine doubles are modelled by the type FVal: a finite rational or a
non-finite value (a NaN or an infinity).  ROS durations are rationals
(dt.toSec()).  The actionlib SimpleActionServer goal channel is modelled
by a Boolean goal-active flag: acceptNewGoal makes it true, setAborted
makes it false.  The pluggable pure-virtual controlAlgorithm hook is a
function parameter; the resetController hook acts only on derived-class
state, which is outside the lifecycle state modelled here.  Reading
position[i] or velocity[i] out of bounds in the sanity loop of
updateControl is undefined behaviour in the C++; the embedding makes it
the explicit error branch of an Except value.
-/

namespace gct

/-- A double value: either a finite rational or a non-finite value
(NaN, +inf or -inf are not distinguished; only std::isfinite is ever
applied to these values by the code under study). -/
inductive FVal where
  | finite : ℚ → FVal
  | notFinite : FVal
deriving DecidableEq, Repr

/-- std::isfinite. -/
def FVal.isFinite : FVal → Bool
  | .finite _ => true
  | .notFinite => false

/-- sensor_msgs::JointState: parallel arrays of joint names, positions,
velocities and efforts. -/
structure JointState where
  name : List String
  position : List FVal
  velocity : List FVal
  effort : List FVal
deriving DecidableEq, Repr

/-- The default-constructed (empty) joint state; an empty position array
marks a state as invalid (controller_template.hpp line 201). -/
def emptyJS : JointState := ⟨[], [], [], []⟩

/-- MAX_DT staleness threshold (controller_template.hpp line 11). -/
def MAX_DT : ℚ := 0.5

/-- The lifecycle state of a ControllerTemplate instance: the cached
last commanded state, the two flags set by resetFlags, and the goal
channel's active flag (action_server_->isActive()). -/
structure CtrlState where
  last_state_ : JointState
  has_state_ : Bool
  acquired_goal_ : Bool
  serverActive : Bool
deriving DecidableEq, Repr

/-- resetFlags (controller_template.hpp lines 191-196). -/
def resetFlags (s : CtrlState) : CtrlState :=
  { s with has_state_ := false, acquired_goal_ := false }

/-- resetInternalState (lines 184-189): resetFlags then the
resetController hook; the hook only touches derived-class state. -/
def resetInternalState (s : CtrlState) : CtrlState :=
  resetFlags s

/-- isActive (lines 173-182). -/
def isActive (s : CtrlState) : Bool :=
  s.serverActive

/-- action_server_->setAborted(result_): the goal becomes terminal, so
the goal channel stops reporting an active goal. -/
def setAborted (s : CtrlState) : CtrlState :=
  { s with serverActive := false }

/-- The velocity-zeroing loop of lastState (lines 210-213). -/
def zeroVels (l : List FVal) : List FVal :=
  l.map (fun _ => FVal.finite 0)

/-- The state cached by lastState when seeding from a valid current
state: current with all velocities zeroed. -/
def heldOf (c : JointState) : JointState :=
  { c with velocity := zeroVels c.velocity }

/-- lastState (controller_template.hpp lines 198-219). -/
def lastState (s : CtrlState) (current : JointState) : CtrlState × JointState :=
  if current.position.length = 0 then (s, s.last_state_)
  else if s.has_state_ = false then
    ({ s with last_state_ := heldOf current, has_state_ := true }, heldOf current)
  else (s, s.last_state_)

/-- The sanity-check loop of updateControl (lines 161-168), as a scan
from index i with k indices left to check (the loop runs for
i = 0 .. ret.name.size()-1).  Reading position[i] or velocity[i] out of
bounds yields the error branch; the Boolean result tells whether all
checked values were finite (false means a non-finite value was found and
the C++ returns lastState). -/
def checkFiniteFrom (ret : JointState) : ℕ → ℕ → Except Unit Bool
  | 0, _ => .ok true
  | k + 1, i =>
    match ret.position[i]? with
    | none => .error ()
    | some p =>
      if p.isFinite then
        match ret.velocity[i]? with
        | none => .error ()
        | some v =>
          if v.isFinite then checkFiniteFrom ret k (i + 1) else .ok false
      else .ok false

/-- The observable outcome of one updateControl call: the new lifecycle
state, the returned joint state (error marks the out-of-bounds read in
the sanity loop), whether the controlAlgorithm hook was invoked, whether
setAborted was called, and whether the invalid-joint-state error was
reported. -/
structure UpdateResult where
  state : CtrlState
  ret : Except Unit JointState
  invokedAlg : Bool
  abortedNow : Bool
  errorReported : Bool

/-- updateControl (controller_template.hpp lines 136-171), with the
controlAlgorithm hook passed as the function alg. -/
def updateControl (alg : JointState → ℚ → JointState) (s : CtrlState)
    (current_state : JointState) (dt : ℚ) : UpdateResult :=
  if !s.serverActive || !s.acquired_goal_ then
    let p := lastState s current_state
    ⟨p.1, .ok p.2, false, false, false⟩
  else if dt > MAX_DT then
    let p := lastState (setAborted s) current_state
    ⟨p.1, .ok p.2, false, true, false⟩
  else
    let ret := alg current_state dt
    let s1 := if !s.serverActive then resetInternalState s else s
    match checkFiniteFrom ret ret.name.length 0 with
    | .error _ => ⟨s1, .error (), true, false, false⟩
    | .ok false =>
      let p := lastState s1 current_state
      ⟨p.1, .ok p.2, true, false, true⟩
    | .ok true => ⟨s1, .ok ret, true, false, false⟩

/-- The observable outcome of the goal callback: the new lifecycle
state, the Boolean goalCB returns, and whether setAborted was called. -/
structure GoalCBResult where
  state : CtrlState
  accepted : Bool
  abortedGoal : Bool

/-- goalCB (controller_template.hpp lines 221-235).  acceptNewGoal makes
the goal channel active; the parseGoal hook's verdict on the payload is
the parameter parseOk. -/
def goalCB (parseOk : Bool) (s : CtrlState) : GoalCBResult :=
  let s1 : CtrlState := { s with serverActive := true }
  if parseOk then
    { state := { s1 with acquired_goal_ := true }, accepted := true, abortedGoal := false }
  else
    { state := setAborted s1, accepted := false, abortedGoal := true }

/-- The lifecycle state right after construction: resetFlags has run and
last_state_ is default-constructed; no goal is active yet. -/
def initState : CtrlState :=
  { last_state_ := emptyJS, has_state_ := false, acquired_goal_ := false,
    serverActive := false }

/-- A sequence of updateControl calls, threading the lifecycle state and
collecting the returned joint states; the first out-of-bounds read (if
any) aborts the run with the error. -/
def runUpdates (alg : JointState → ℚ → JointState) :
    CtrlState → List (JointState × ℚ) → Except Unit (CtrlState × List JointState)
  | s, [] => .ok (s, [])
  | s, (c, dt) :: rest =>
    let r := updateControl alg s c dt
    match r.ret with
    | .error e => .error e
    | .ok out =>
      match runUpdates alg r.state rest with
      | .error e => .error e
      | .ok (s', outs) => .ok (s', out :: outs)

/-- The idle run: what a sequence of updateControl calls computes when
no goal is acquired (each call reduces to lastState). -/
def idleRun : CtrlState → List (JointState × ℚ) → CtrlState × List JointState
  | s, [] => (s, [])
  | s, (c, _) :: rest =>
    let p := lastState s c
    let q := idleRun p.1 rest
    (q.1, p.2 :: q.2)

/-- A trivial control algorithm used as a concrete instantiation. -/
def alg0 : JointState → ℚ → JointState := fun c _ => c

/-- A concrete valid joint state. -/
def jsA : JointState := ⟨["j1"], [FVal.finite 1], [FVal.finite 2], []⟩

/-- A concrete lifecycle state with an active, acquired goal. -/
def sAct : CtrlState :=
  { last_state_ := emptyJS, has_state_ := false, acquired_goal_ := true,
    serverActive := true }

/-- A concrete algorithm output with a non-finite position value. -/
def jsBad : JointState := ⟨["a"], [FVal.notFinite], [FVal.finite 0], []⟩

/-- An algorithm that always returns jsBad. -/
def algBad : JointState → ℚ → JointState := fun _ _ => jsBad

/-- A concrete algorithm output with only finite values. -/
def jsGood : JointState := ⟨["a"], [FVal.finite 1], [FVal.finite 0], []⟩

/-- An algorithm that always returns jsGood. -/
def algGood : JointState → ℚ → JointState := fun _ _ => jsGood

/-- An algorithm output whose name array is longer than its position and
velocity arrays while its leading position value is non-finite: the
sanity loop exits early on the non-finite value and never reaches the
out-of-bounds index. -/
def cexRet : JointState := ⟨["a", "b"], [FVal.notFinite], [], []⟩

/-- An algorithm that always returns cexRet. -/
def cexAlg : JointState → ℚ → JointState := fun _ _ => cexRet

/-- An algorithm output whose name array is longer than its (all-finite)
position and velocity arrays, driving the sanity loop out of bounds. -/
def jsShort : JointState := ⟨["a", "b"], [FVal.finite 1], [FVal.finite 1], []⟩

/-- An algorithm that always returns jsShort. -/
def algShort : JointState → ℚ → JointState := fun _ _ => jsShort

/-- A 3-vector of exact reals (the embedding of double components). -/
abbrev Vec3 := Fin 3 → ℚ

/-- A 6-vector (an Eigen::Matrix of doubles with 6 rows and 1 column). -/
abbrev Vec6 := Fin 6 → ℚ

/-- A 3x3 rotation-matrix carrier. -/
abbrev Mat3 := Fin 3 → Fin 3 → ℚ

/-- KDL::Frame: a rotation M and a translation p. -/
structure Frame where
  M : Mat3
  p : Vec3

/-- The cross product of 3-vectors (KDL Vector operator*). -/
def cross (a b : Vec3) : Vec3 :=
  ![a 1 * b 2 - a 2 * b 1, a 2 * b 0 - a 0 * b 2, a 0 * b 1 - a 1 * b 0]

/-- Rotation-matrix application to a 3-vector. -/
def matVec3 (M : Mat3) (v : Vec3) : Vec3 := fun i => ∑ j, M i j * v j

/-- KDL::Wrench: a force and a torque 3-vector. -/
structure KDLWrench where
  force : Vec3
  torque : Vec3

/-- KDL::Wrench::Zero(). -/
def KDLWrench.zero : KDLWrench := ⟨fun _ => 0, fun _ => 0⟩

/-- The identity KDL::Frame. -/
def Frame.identity : Frame := ⟨fun i j => if i = j then 1 else 0, fun _ => 0⟩

instance : Inhabited KDLWrench := ⟨KDLWrench.zero⟩

instance : Inhabited Frame := ⟨Frame.identity⟩

/-- KDL Frame * Wrench (KDL frames.inl): force is rotated, torque is
rotated plus the translation crossed with the rotated force. -/
def applyFrame (F : Frame) (w : KDLWrench) : KDLWrench :=
  let f := matVec3 F.M w.force
  { force := f, torque := fun i => matVec3 F.M w.torque i + cross F.p f i }

/-- Eigen::MatrixXd: a dynamically sized real matrix. -/
structure MatrixXd where
  rows : ℕ
  cols : ℕ
  entry : ℕ → ℕ → ℚ

instance : Inhabited MatrixXd := ⟨⟨0, 0, fun _ _ => 0⟩⟩

/-- tf::wrenchKDLToEigen: repack (force, torque) into a 6-vector. -/
def wrenchKDLToEigen (w : KDLWrench) : Vec6 := fun i =>
  if h : (i : ℕ) < 3 then w.force ⟨(i : ℕ), h⟩
  else w.torque ⟨(i : ℕ) - 3, by have := i.isLt; omega⟩

/-- tf::wrenchEigenToKDL: repack a 6-vector into (force, torque). -/
def wrenchEigenToKDL (v : Vec6) : KDLWrench :=
  { force := fun i => v ⟨(i : ℕ), by have := i.isLt; omega⟩,
    torque := fun i => v ⟨(i : ℕ) + 3, by have := i.isLt; omega⟩ }

/-- tf::wrenchMsgToEigen: the message wrench carries the same force and
torque components, so the repacking coincides with the KDL one. -/
def wrenchMsgToEigen (w : KDLWrench) : Vec6 := wrenchKDLToEigen w

/-- tf::wrenchKDLToMsg: identity repacking into the message layout. -/
def wrenchKDLToMsg (w : KDLWrench) : KDLWrench := w

/-- 6x6-matrix by 6-vector product (Eigen operator*). -/
def mul6 (C : MatrixXd) (v : Vec6) : Vec6 := fun i => ∑ j : Fin 6, C.entry i j * v j

/-- geometry_msgs::WrenchStamped as published at the gripping point. -/
structure WrenchStampedMsg where
  frame_id : String
  wrench : KDLWrench

/-- The WrenchManager state: the retry bound read at construction and
the parallel per-channel arrays (wrench_manager.cpp lines 87-97).  The
subscriber and publisher handles carry no queryable state and are left
out; publishing is modelled as a returned message. -/
structure WrenchManager where
  max_tf_attempts_ : ℤ
  calibration_matrix_ : List MatrixXd
  manager_index_ : List String
  sensor_frame_ : List String
  sensor_to_gripping_point_ : List Frame
  measured_wrench_ : List KDLWrench
  gripping_frame_ : List String

/-- First index of a list element satisfying p (a for loop with break). -/
def firstMatch {α : Type} (p : α → Bool) : List α → Option ℕ
  | [] => none
  | a :: l => if p a then some 0 else (firstMatch p l).map (· + 1)

/-- Modelled from the spec: ManagerBase::getIndex is not under src/;
the spec describes end-effector lookup as a linear search over the
registered names (growing parallel arrays keyed by linear search),
returning the index when the name is registered. -/
def getIndex (m : WrenchManager) (end_effector : String) : Option ℕ :=
  firstMatch (fun s => s == end_effector) m.manager_index_

/-- The WrenchManager constructor (wrench_manager.cpp lines 5-28): the
retry bound comes from the max_tf_attempts parameter, defaulting to 5
when the parameter is missing; no channels are registered yet. -/
def initWM (param : Option ℤ) : WrenchManager :=
  { max_tf_attempts_ := param.getD 5,
    calibration_matrix_ := [],
    manager_index_ := [],
    sensor_frame_ := [],
    sensor_to_gripping_point_ := [],
    measured_wrench_ := [],
    gripping_frame_ := [] }

/-- The transform-retry loop (wrench_manager.cpp lines 53-66): tf k is
the Frame Resolver's outcome at attempt k; the loop stops at the first
success and gives up after the fuel (max_tf_attempts_) is exhausted.
The second component counts the 0.1-time-unit sleeps performed (one
after every failed attempt). -/
def tryTF (tf : ℕ → Option Frame) : ℕ → ℕ → Option Frame × ℕ
  | 0, _ => (none, 0)
  | fuel + 1, k =>
    match tf k with
    | some F => (some F, 0)
    | none =>
      let r := tryTF tf fuel (k + 1)
      (r.1, r.2 + 1)

/-- The registration tail after the transform gate (wrench_manager.cpp
lines 74-99): the calibration-matrix lookup (none models a missing
parameter), the 6x6 dimension gate, and the append of the new channel
with a zero-initialized measured wrench. -/
def registerChannel (m : WrenchManager) (calib : Option MatrixXd)
    (end_effector sensor_frame gripping_point_frame : String) (F : Frame) :
    Bool × WrenchManager :=
  match calib with
  | none => (false, m)
  | some C =>
    if C.cols ≠ 6 ∨ C.rows ≠ 6 then (false, m)
    else
      (true,
       { m with
         calibration_matrix_ := m.calibration_matrix_ ++ [C],
         manager_index_ := m.manager_index_ ++ [end_effector],
         sensor_frame_ := m.sensor_frame_ ++ [sensor_frame],
         sensor_to_gripping_point_ := m.sensor_to_gripping_point_ ++ [F],
         measured_wrench_ := m.measured_wrench_ ++ [KDLWrench.zero],
         gripping_frame_ := m.gripping_frame_ ++ [gripping_point_frame] })

/-- initializeWrenchComm (wrench_manager.cpp lines 32-100): the
duplicate gate, the bounded transform retry, then the calibration gate
and channel append.  tf abstracts the Frame Resolver per attempt; calib
abstracts the calibration-parameter lookup; the sensor topic only names
the subscription and publisher, which carry no state here. -/
def initializeWrenchComm (m : WrenchManager) (tf : ℕ → Option Frame)
    (calib : Option MatrixXd)
    (end_effector sensor_frame gripping_point_frame sensor_topic : String) :
    Bool × WrenchManager :=
  if (getIndex m end_effector).isSome then (false, m)
  else
    match (tryTF tf m.max_tf_attempts_.toNat 0).1 with
    | none => (false, m)
    | some F => registerChannel m calib end_effector sensor_frame gripping_point_frame F

/-- wrenchAtSensorPoint (wrench_manager.cpp lines 124-135). -/
def wrenchAtSensorPoint (m : WrenchManager) (end_effector : String) : Option Vec6 :=
  match getIndex m end_effector with
  | none => none
  | some arm => some (wrenchKDLToEigen (m.measured_wrench_.getD arm default))

/-- wrenchAtGrippingPoint (wrench_manager.cpp lines 102-122): the cached
wrench is transformed through the channel's static frame; the
transformed wrench is also published (modelled as the returned
message). -/
def wrenchAtGrippingPoint (m : WrenchManager) (end_effector : String) :
    Option (Vec6 × WrenchStampedMsg) :=
  match getIndex m end_effector with
  | none => none
  | some arm =>
    let wrench_kdl := applyFrame (m.sensor_to_gripping_point_.getD arm default)
      (m.measured_wrench_.getD arm default)
    some (wrenchKDLToEigen wrench_kdl,
      { frame_id := m.gripping_frame_.getD arm "",
        wrench := wrenchKDLToMsg wrench_kdl })

/-- forceTorqueCB (wrench_manager.cpp lines 137-159): the sample's frame
is matched against the registered sensor frames (first match wins); an
unmatched sample is dropped; a matched sample has the channel's
calibration matrix applied and overwrites the cached measured wrench. -/
def forceTorqueCB (m : WrenchManager) (frame_id : String) (w : KDLWrench) :
    WrenchManager :=
  match firstMatch (fun s => s == frame_id) m.sensor_frame_ with
  | none => m
  | some sensor_num =>
    let wrench_eig := wrenchMsgToEigen w
    let wrench_eig2 := mul6 (m.calibration_matrix_.getD sensor_num default) wrench_eig
    { m with measured_wrench_ :=
        m.measured_wrench_.set sensor_num (wrenchEigenToKDL wrench_eig2) }

/-- Well-formedness of the parallel channel arrays: every registered
channel has an entry in each array. -/
def WrenchManager.WF (m : WrenchManager) : Prop :=
  m.calibration_matrix_.length = m.manager_index_.length ∧
  m.sensor_frame_.length = m.manager_index_.length ∧
  m.sensor_to_gripping_point_.length = m.manager_index_.length ∧
  m.measured_wrench_.length = m.manager_index_.length ∧
  m.gripping_frame_.length = m.manager_index_.length

/-- The 6x6 identity calibration matrix. -/
def id6 : MatrixXd := ⟨6, 6, fun i j => if i = j then 1 else 0⟩

/-- A 5x6 calibration matrix (wrong shape). -/
def mat56 : MatrixXd := ⟨5, 6, fun _ _ => 0⟩

/-- A 6x5 calibration matrix (wrong shape). -/
def mat65 : MatrixXd := ⟨6, 5, fun _ _ => 0⟩

/-- A 0x0 calibration matrix (wrong shape). -/
def mat00 : MatrixXd := ⟨0, 0, fun _ _ => 0⟩

/-- A concrete raw wrench sample (1,2,3,4,5,6). -/
def wSample : KDLWrench := ⟨![1, 2, 3], ![4, 5, 6]⟩

/-- A concrete manager with one registered channel. -/
def mW : WrenchManager :=
  { max_tf_attempts_ := 5,
    calibration_matrix_ := [id6],
    manager_index_ := ["left_arm"],
    sensor_frame_ := ["left_sensor"],
    sensor_to_gripping_point_ := [Frame.identity],
    measured_wrench_ := [KDLWrench.zero],
    gripping_frame_ := ["left_gripper"] }

/-- The freshly constructed manager with the default retry bound. -/
def emptyWM : WrenchManager := initWM none

end gct

namespace gct

lemma lastState_serverActive (s : CtrlState) (c : JointState) :
    (lastState s c).1.serverActive = s.serverActive := by
  unfold lastState
  split
  · rfl
  · split <;> rfl

lemma lastState_acquired (s : CtrlState) (c : JointState) :
    (lastState s c).1.acquired_goal_ = s.acquired_goal_ := by
  unfold lastState
  split
  · rfl
  · split <;> rfl

/-- C1: with an active, acquired goal, a dt strictly above MAX_DT aborts
the goal and returns the last known state without invoking the control
algorithm, while a dt exactly equal to MAX_DT does not abort and invokes
the algorithm. -/
theorem C1_staleness_threshold (alg : JointState → ℚ → JointState)
    (s : CtrlState) (c : JointState) (dt : ℚ)
    (hA : s.serverActive = true) (hG : s.acquired_goal_ = true) :
    (dt > MAX_DT →
      (updateControl alg s c dt).abortedNow = true ∧
      (updateControl alg s c dt).invokedAlg = false ∧
      (updateControl alg s c dt).state.serverActive = false ∧
      (updateControl alg s c dt).ret = .ok (lastState (setAborted s) c).2) ∧
    (dt = MAX_DT →
      (updateControl alg s c dt).abortedNow = false ∧
      (updateControl alg s c dt).invokedAlg = true ∧
      (updateControl alg s c dt).state.serverActive = true) := by
  constructor
  · intro hdt
    simp only [updateControl, hA, hG, Bool.not_true, Bool.or_self, Bool.false_eq_true,
      if_false, if_pos hdt]
    refine ⟨trivial, trivial, ?_, trivial⟩
    rw [lastState_serverActive]
    rfl
  · intro hdt
    subst hdt
    simp only [updateControl, hA, hG, Bool.not_true, Bool.or_self, Bool.false_eq_true,
      if_false, gt_iff_lt, lt_irrefl, Bool.not_true]
    cases h : checkFiniteFrom (alg c MAX_DT) (alg c MAX_DT).name.length 0 with
    | error e => simp [h, hA]
    | ok b =>
      cases b with
      | false => simp [h, hA, lastState_serverActive]
      | true => simp [h, hA]

/-- C1 witness: the staleness theorem evaluated at a concrete active
state, with dt = 1 (stale) and dt = MAX_DT (boundary, not stale). -/
theorem C1_staleness_threshold_witness :
    ((updateControl alg0 sAct jsA 1).abortedNow = true ∧
     (updateControl alg0 sAct jsA 1).invokedAlg = false) ∧
    ((updateControl alg0 sAct jsA MAX_DT).abortedNow = false ∧
     (updateControl alg0 sAct jsA MAX_DT).invokedAlg = true) := by
  constructor
  · have h := (C1_staleness_threshold alg0 sAct jsA 1 rfl rfl).1 (by norm_num [MAX_DT])
    exact ⟨h.1, h.2.1⟩
  · have h := (C1_staleness_threshold alg0 sAct jsA MAX_DT rfl rfl).2 rfl
    exact ⟨h.1, h.2.1⟩

lemma lastState_hasState (s : CtrlState) (c : JointState) (h : s.has_state_ = true) :
    lastState s c = (s, s.last_state_) := by
  unfold lastState
  split
  · rfl
  · rw [h]
    simp

lemma updateControl_idle (alg : JointState → ℚ → JointState) (s : CtrlState)
    (c : JointState) (dt : ℚ) (h : s.acquired_goal_ = false) :
    updateControl alg s c dt =
      ⟨(lastState s c).1, .ok (lastState s c).2, false, false, false⟩ := by
  simp [updateControl, h]

lemma runUpdates_idle (alg : JointState → ℚ → JointState)
    (inputs : List (JointState × ℚ)) :
    ∀ s : CtrlState, s.acquired_goal_ = false →
      runUpdates alg s inputs = .ok (idleRun s inputs) := by
  induction inputs with
  | nil => intro s _; rfl
  | cons cd rest ih =>
    intro s hs
    obtain ⟨c, dt⟩ := cd
    rw [runUpdates, updateControl_idle alg s c dt hs]
    have hs' : (lastState s c).1.acquired_goal_ = false := by
      rw [lastState_acquired]; exact hs
    simp only [idleRun]
    rw [ih (lastState s c).1 hs']

lemma idleRun_length (inputs : List (JointState × ℚ)) :
    ∀ s : CtrlState, (idleRun s inputs).2.length = inputs.length := by
  induction inputs with
  | nil => intro s; rfl
  | cons cd rest ih =>
    intro s
    obtain ⟨c, dt⟩ := cd
    simp only [idleRun, List.length_cons]
    rw [ih]

lemma idleRun_hasState (inputs : List (JointState × ℚ)) :
    ∀ s : CtrlState, s.has_state_ = true →
      idleRun s inputs = (s, List.replicate inputs.length s.last_state_) := by
  induction inputs with
  | nil => intro s _; rfl
  | cons cd rest ih =>
    intro s hs
    obtain ⟨c, dt⟩ := cd
    simp only [idleRun, lastState_hasState s c hs, List.length_cons]
    rw [ih s hs, List.replicate_succ]

lemma idleRun_cons (s : CtrlState) (c : JointState) (dt : ℚ)
    (rest : List (JointState × ℚ)) :
    (idleRun s ((c, dt) :: rest)).2 =
      (lastState s c).2 :: (idleRun (lastState s c).1 rest).2 := by
  simp only [idleRun]

lemma idleRun_out (inputs : List (JointState × ℚ)) :
    ∀ s : CtrlState, s.has_state_ = false →
      ∀ i, i < inputs.length →
        (idleRun s inputs).2[i]? =
          some (match ((inputs.map Prod.fst).take (i + 1)).find?
              (fun c => decide (c.position.length ≠ 0)) with
          | some c0 => heldOf c0
          | none => s.last_state_) := by
  induction inputs with
  | nil =>
    intro s _ i hi
    simp at hi
  | cons cd rest ih =>
    intro s hs i hi
    obtain ⟨c, dt⟩ := cd
    by_cases hc : c.position.length = 0
    · have hls : lastState s c = (s, s.last_state_) := by
        unfold lastState; rw [if_pos hc]
      have hcnil : c.position = [] := List.length_eq_zero.mp hc
      rw [idleRun_cons, hls]
      cases i with
      | zero => simp [hcnil]
      | succ j =>
        rw [List.getElem?_cons_succ, ih s hs j (by simpa using hi)]
        simp [hcnil]
    · have hls : lastState s c =
          ({ s with last_state_ := heldOf c, has_state_ := true }, heldOf c) := by
        unfold lastState; rw [if_neg hc, if_pos hs]
      have hcne : c.position ≠ [] := fun h => hc (by rw [h]; rfl)
      rw [idleRun_cons, hls]
      cases i with
      | zero => simp [hcne]
      | succ j =>
        have hrep := idleRun_hasState rest
          { s with last_state_ := heldOf c, has_state_ := true } rfl
        have hj : j < rest.length := by simpa using hi
        rw [List.getElem?_cons_succ, hrep]
        simp [hcne, hj]

/-- C2: over any sequence of updateControl calls in which no goal is
ever acquired, every returned state is the held state seeded from the
first valid current state observed so far (position kept, velocity all
zero), or the empty default state when no valid current state has been
seen yet; in particular calls with an invalid current state return the
cache unchanged. -/
theorem C2_idle_hold (alg : JointState → ℚ → JointState) (s : CtrlState)
    (inputs : List (JointState × ℚ))
    (hG : s.acquired_goal_ = false) (hH : s.has_state_ = false)
    (hL : s.last_state_ = emptyJS) :
    ∃ fs outs, runUpdates alg s inputs = .ok (fs, outs) ∧
      outs.length = inputs.length ∧
      (∀ out ∈ outs, ∀ v ∈ out.velocity, v = FVal.finite 0) ∧
      (∀ i, i < inputs.length → outs[i]? =
        some (match ((inputs.map Prod.fst).take (i + 1)).find?
            (fun c => decide (c.position.length ≠ 0)) with
        | some c0 => heldOf c0
        | none => emptyJS)) := by
  refine ⟨(idleRun s inputs).1, (idleRun s inputs).2, runUpdates_idle alg inputs s hG,
    idleRun_length inputs s, ?_, ?_⟩
  · intro out hout v hv
    obtain ⟨n, hn⟩ := List.mem_iff_getElem?.mp hout
    have hnlen : n < inputs.length := by
      have h1 : n < (idleRun s inputs).2.length := by
        by_contra hcon
        rw [List.getElem?_eq_none (by omega)] at hn
        cases hn
      rw [idleRun_length] at h1
      exact h1
    have hchar := idleRun_out inputs s hH n hnlen
    rw [hn] at hchar
    have hout_eq := Option.some.inj hchar
    revert hv
    rw [hout_eq]
    cases hfind : ((inputs.map Prod.fst).take (n + 1)).find?
        (fun c => decide (c.position.length ≠ 0)) with
    | none =>
      intro hv
      rw [hL] at hv
      simp [emptyJS] at hv
    | some c0 =>
      intro hv
      simp only [heldOf, zeroVels] at hv
      obtain ⟨x, _, hx⟩ := List.mem_map.mp hv
      exact hx.symm
  · intro i hi
    rw [idleRun_out inputs s hH i hi, hL]

/-- C2 witness: the idle-hold theorem evaluated at the initial state on
a concrete two-call sequence (one invalid, one valid current state). -/
theorem C2_idle_hold_witness :
    ∃ fs outs, runUpdates alg0 initState [(emptyJS, 1), (jsA, 1)] = .ok (fs, outs) ∧
      outs.length = [(emptyJS, (1 : ℚ)), (jsA, 1)].length ∧
      (∀ out ∈ outs, ∀ v ∈ out.velocity, v = FVal.finite 0) ∧
      (∀ i, i < [(emptyJS, (1 : ℚ)), (jsA, 1)].length → outs[i]? =
        some (match (([(emptyJS, (1 : ℚ)), (jsA, 1)].map Prod.fst).take (i + 1)).find?
            (fun c => decide (c.position.length ≠ 0)) with
        | some c0 => heldOf c0
        | none => emptyJS)) :=
  C2_idle_hold alg0 initState [(emptyJS, 1), (jsA, 1)] rfl rfl rfl

/-- C9: a goal whose payload fails parseGoal is aborted at once, the
lifecycle state is otherwise untouched and isActive() is false right
afterwards; a goal whose payload parses successfully sets the
acquisition flag. -/
theorem C9_goal_parse (s : CtrlState) :
    (goalCB false s).abortedGoal = true ∧
    (goalCB false s).accepted = false ∧
    (goalCB false s).state.last_state_ = s.last_state_ ∧
    (goalCB false s).state.has_state_ = s.has_state_ ∧
    (goalCB false s).state.acquired_goal_ = s.acquired_goal_ ∧
    isActive (goalCB false s).state = false ∧
    (goalCB true s).state.acquired_goal_ = true := by
  refine ⟨rfl, rfl, rfl, rfl, rfl, rfl, rfl⟩

lemma getElem?_some_getD {α : Type} (l : List α) (d : α) (j : ℕ) (h : j < l.length) :
    l[j]? = some (l.getD j d) := by
  simp [List.getElem?_eq_getElem h]

lemma checkFiniteFrom_allOk (ret : JointState) :
    ∀ k i, i + k ≤ ret.position.length → i + k ≤ ret.velocity.length →
      (∀ j, i ≤ j → j < i + k →
        (ret.position.getD j FVal.notFinite).isFinite = true ∧
        (ret.velocity.getD j FVal.notFinite).isFinite = true) →
      checkFiniteFrom ret k i = .ok true := by
  intro k
  induction k with
  | zero => intro i _ _ _; rfl
  | succ k ih =>
    intro i hp hv h
    have hip : i < ret.position.length := by omega
    have hiv : i < ret.velocity.length := by omega
    have h0 := h i (le_refl i) (by omega)
    simp only [checkFiniteFrom, getElem?_some_getD ret.position FVal.notFinite i hip,
      getElem?_some_getD ret.velocity FVal.notFinite i hiv, h0.1, h0.2, if_true]
    exact ih (i + 1) (by omega) (by omega) (fun j h1 h2 => h j (by omega) (by omega))

lemma checkFiniteFrom_bad (ret : JointState) :
    ∀ k i, i + k ≤ ret.position.length → i + k ≤ ret.velocity.length →
      (∃ j, i ≤ j ∧ j < i + k ∧
        ((ret.position.getD j FVal.notFinite).isFinite = false ∨
         (ret.velocity.getD j FVal.notFinite).isFinite = false)) →
      checkFiniteFrom ret k i = .ok false := by
  intro k
  induction k with
  | zero =>
    rintro i _ _ ⟨j, h1, h2, _⟩
    omega
  | succ k ih =>
    rintro i hp hv ⟨j, hij, hjk, hbad⟩
    have hip : i < ret.position.length := by omega
    have hiv : i < ret.velocity.length := by omega
    by_cases hpi : (ret.position.getD i FVal.notFinite).isFinite = true
    · by_cases hvi : (ret.velocity.getD i FVal.notFinite).isFinite = true
      · have hji : j ≠ i := by
          rintro rfl
          rcases hbad with hb | hb
          · rw [hpi] at hb; cases hb
          · rw [hvi] at hb; cases hb
        simp only [checkFiniteFrom, getElem?_some_getD ret.position FVal.notFinite i hip,
          getElem?_some_getD ret.velocity FVal.notFinite i hiv, hpi, hvi, if_true]
        exact ih (i + 1) (by omega) (by omega) ⟨j, by omega, by omega, hbad⟩
      · rw [Bool.not_eq_true] at hvi
        simp only [checkFiniteFrom, getElem?_some_getD ret.position FVal.notFinite i hip,
          getElem?_some_getD ret.velocity FVal.notFinite i hiv, hpi, hvi, if_true,
          Bool.false_eq_true, if_false]
    · rw [Bool.not_eq_true] at hpi
      simp only [checkFiniteFrom, getElem?_some_getD ret.position FVal.notFinite i hip,
        hpi, Bool.false_eq_true, if_false]

/-- C3: with an active, acquired goal and a non-stale dt, an algorithm
output containing a non-finite position or velocity value is discarded:
the lastState fallback is returned, the goal stays active, nothing is
aborted, and the error is reported; an all-finite output is returned
as-is.  The algorithm output is assumed to have position and velocity
arrays at least as long as its name array (the JointState alignment
invariant), so that the sanity loop stays in bounds. -/
theorem C3_nonfinite_output (alg : JointState → ℚ → JointState) (s : CtrlState)
    (c : JointState) (dt : ℚ)
    (hA : s.serverActive = true) (hG : s.acquired_goal_ = true) (hdt : ¬dt > MAX_DT)
    (hp : (alg c dt).name.length ≤ (alg c dt).position.length)
    (hv : (alg c dt).name.length ≤ (alg c dt).velocity.length) :
    ((∃ j, j < (alg c dt).name.length ∧
        (((alg c dt).position.getD j FVal.notFinite).isFinite = false ∨
         ((alg c dt).velocity.getD j FVal.notFinite).isFinite = false)) →
      (updateControl alg s c dt).ret = .ok (lastState s c).2 ∧
      (updateControl alg s c dt).state.serverActive = true ∧
      (updateControl alg s c dt).state.acquired_goal_ = true ∧
      (updateControl alg s c dt).abortedNow = false ∧
      (updateControl alg s c dt).errorReported = true) ∧
    ((∀ j, j < (alg c dt).name.length →
        ((alg c dt).position.getD j FVal.notFinite).isFinite = true ∧
        ((alg c dt).velocity.getD j FVal.notFinite).isFinite = true) →
      (updateControl alg s c dt).ret = .ok (alg c dt) ∧
      (updateControl alg s c dt).errorReported = false) := by
  constructor
  · intro hbad
    obtain ⟨j, hj, hb⟩ := hbad
    have hchk : checkFiniteFrom (alg c dt) (alg c dt).name.length 0 = .ok false :=
      checkFiniteFrom_bad (alg c dt) (alg c dt).name.length 0 (by omega) (by omega)
        ⟨j, by omega, by omega, hb⟩
    simp only [updateControl, hA, hG, Bool.not_true, Bool.or_self, Bool.false_eq_true,
      if_false, if_neg hdt, hchk]
    refine ⟨by trivial, ?_, ?_, by trivial, by trivial⟩
    · rw [lastState_serverActive]; exact hA
    · rw [lastState_acquired]; exact hG
  · intro hgood
    have hchk : checkFiniteFrom (alg c dt) (alg c dt).name.length 0 = .ok true :=
      checkFiniteFrom_allOk (alg c dt) (alg c dt).name.length 0 (by omega) (by omega)
        (fun j h1 h2 => hgood j (by omega))
    simp only [updateControl, hA, hG, Bool.not_true, Bool.or_self, Bool.false_eq_true,
      if_false, if_neg hdt, hchk]
    exact ⟨by trivial, by trivial⟩

/-- C3 witness: the non-finite-output theorem evaluated at a concrete
active state, once with an algorithm producing a NaN position and once
with one producing only finite values. -/
theorem C3_nonfinite_output_witness :
    ((updateControl algBad sAct jsA 0).ret = .ok (lastState sAct jsA).2 ∧
     (updateControl algBad sAct jsA 0).errorReported = true ∧
     (updateControl algBad sAct jsA 0).state.serverActive = true) ∧
    ((updateControl algGood sAct jsA 0).ret = .ok (algGood jsA 0) ∧
     (updateControl algGood sAct jsA 0).errorReported = false) := by
  constructor
  · have h := (C3_nonfinite_output algBad sAct jsA 0 rfl rfl (by norm_num [MAX_DT])
      (by decide) (by decide)).1 ⟨0, by decide, Or.inl (by decide)⟩
    exact ⟨h.1, h.2.2.2.2, h.2.1⟩
  · exact (C3_nonfinite_output algGood sAct jsA 0 rfl rfl (by norm_num [MAX_DT])
      (by decide) (by decide)).2
      (fun j hj => by
        have hj0 : j = 0 := by
          have : (algGood jsA 0).name.length = 1 := rfl
          omega
        subst hj0
        exact ⟨by decide, by decide⟩)

lemma checkFiniteFrom_oob (ret : JointState)
    (hfp : ∀ p ∈ ret.position, p.isFinite = true)
    (hfv : ∀ v ∈ ret.velocity, v.isFinite = true)
    (hshort : ret.position.length < ret.name.length ∨
      ret.velocity.length < ret.name.length) :
    ∀ k i, i + k = ret.name.length →
      i ≤ ret.position.length → i ≤ ret.velocity.length →
      checkFiniteFrom ret k i = .error () := by
  intro k
  induction k with
  | zero =>
    intro i hik hp hv
    omega
  | succ k ih =>
    intro i hik hp hv
    by_cases hip : i < ret.position.length
    · have hpfin : ret.position[i].isFinite = true :=
        hfp ret.position[i] (List.getElem_mem hip)
      by_cases hiv : i < ret.velocity.length
      · have hvfin : ret.velocity[i].isFinite = true :=
          hfv ret.velocity[i] (List.getElem_mem hiv)
        simp only [checkFiniteFrom, List.getElem?_eq_getElem hip,
          List.getElem?_eq_getElem hiv, hpfin, hvfin, if_true]
        exact ih (i + 1) (by omega) (by omega) (by omega)
      · have hnone : ret.velocity[i]? = none := List.getElem?_eq_none (by omega)
        simp only [checkFiniteFrom, List.getElem?_eq_getElem hip, hpfin, if_true, hnone]
    · have hnone : ret.position[i]? = none := List.getElem?_eq_none (by omega)
      simp only [checkFiniteFrom, hnone]

/-- C10 (amended): the sanity loop of updateControl indexes position[i]
and velocity[i] up to name.size() without a bounds check; on the active,
non-stale path, an algorithm output whose name array is longer than its
position or velocity array reaches the out-of-bounds read (the error
branch of the total embedding) whenever every value actually present in
the position and velocity arrays is finite — a non-finite value before
the out-of-bounds index instead exits the loop early. -/
theorem C10_unchecked_indexing (alg : JointState → ℚ → JointState) (s : CtrlState)
    (c : JointState) (dt : ℚ)
    (hA : s.serverActive = true) (hG : s.acquired_goal_ = true) (hdt : ¬dt > MAX_DT)
    (hshort : (alg c dt).position.length < (alg c dt).name.length ∨
      (alg c dt).velocity.length < (alg c dt).name.length)
    (hfp : ∀ p ∈ (alg c dt).position, p.isFinite = true)
    (hfv : ∀ v ∈ (alg c dt).velocity, v.isFinite = true) :
    (updateControl alg s c dt).ret = .error () ∧
    (updateControl alg s c dt).invokedAlg = true := by
  have hchk : checkFiniteFrom (alg c dt) (alg c dt).name.length 0 = .error () :=
    checkFiniteFrom_oob (alg c dt) hfp hfv hshort (alg c dt).name.length 0 (by omega)
      (by omega) (by omega)
  simp only [updateControl, hA, hG, Bool.not_true, Bool.or_self, Bool.false_eq_true,
    if_false, if_neg hdt, hchk]
  exact ⟨by trivial, by trivial⟩

/-- C10 witness: the amended theorem evaluated at a concrete active
state with an all-finite algorithm output whose arrays are shorter than
its name list. -/
theorem C10_unchecked_indexing_witness :
    (updateControl algShort sAct jsA (1 / 4)).ret = .error () ∧
    (updateControl algShort sAct jsA (1 / 4)).invokedAlg = true :=
  C10_unchecked_indexing algShort sAct jsA (1 / 4) rfl rfl (by norm_num [MAX_DT])
    (Or.inl (by decide)) (by decide) (by decide)

/-- C10 counterexample: the claim as stated — any output with name
longer than position or velocity reaches the indexing error — fails on
cexRet: its leading position value is non-finite, the loop exits early
returning the lastState fallback, and no out-of-bounds read happens. -/
theorem C10_counterexample :
    cexRet.position.length < cexRet.name.length ∧
    cexRet.velocity.length < cexRet.name.length ∧
    (updateControl cexAlg sAct jsA (1 / 4)).ret = .ok (lastState sAct jsA).2 := by
  have hdt : ¬((1 : ℚ) / 4 > MAX_DT) := by norm_num [MAX_DT]
  have hcond : (!sAct.serverActive || !sAct.acquired_goal_) = false := rfl
  have hchk : checkFiniteFrom cexRet cexRet.name.length 0 = .ok false := rfl
  have hsrv : (!sAct.serverActive) = false := rfl
  refine ⟨by decide, by decide, ?_⟩
  simp only [updateControl, hcond, hsrv, Bool.false_eq_true, if_false, if_neg hdt,
    cexAlg, hchk]
  split <;> rfl

lemma firstMatch_lt_length {α : Type} (p : α → Bool) :
    ∀ (l : List α) (i : ℕ), firstMatch p l = some i → i < l.length := by
  intro l
  induction l with
  | nil => intro i h; cases h
  | cons a l ih =>
    intro i h
    unfold firstMatch at h
    by_cases hp : p a
    · rw [if_pos hp] at h
      cases h
      simp
    · rw [if_neg hp] at h
      obtain ⟨j, hj, rfl⟩ := Option.map_eq_some'.mp h
      have := ih j hj
      simp only [List.length_cons]
      omega

lemma getD_set_self {α : Type} (d : α) :
    ∀ (l : List α) (i : ℕ) (x : α), i < l.length → (l.set i x).getD i d = x
  | [], i, x, h => by cases h
  | a :: l, 0, x, _ => rfl
  | a :: l, i + 1, x, h => by
    simp only [List.set_cons_succ, List.getD_cons_succ]
    exact getD_set_self d l i x (by simpa using h)

lemma eigen_kdl_eigen (v : Vec6) : wrenchKDLToEigen (wrenchEigenToKDL v) = v := by
  funext i
  unfold wrenchKDLToEigen wrenchEigenToKDL
  by_cases h : (i : ℕ) < 3
  · rw [dif_pos h]
  · rw [dif_neg h]
    exact congrArg v (Fin.ext (by have := i.isLt; simp only [Fin.val_mk]; omega))

lemma wrenchAtSensorPoint_some (m : WrenchManager) (end_effector : String) (arm : ℕ)
    (h : getIndex m end_effector = some arm) :
    wrenchAtSensorPoint m end_effector =
      some (wrenchKDLToEigen (m.measured_wrench_.getD arm default)) := by
  unfold wrenchAtSensorPoint
  rw [h]

/-- C4: for a registered channel, after ingesting a raw sample whose
frame matches that channel's sensor frame (first match, per the
ingestion search), wrenchAtSensorPoint returns exactly the channel's
calibration matrix times the raw 6-vector sample. -/
theorem C4_calibration_roundtrip (m : WrenchManager)
    (end_effector frame_id : String) (w : KDLWrench) (i : ℕ)
    (hWF : m.WF) (hEE : getIndex m end_effector = some i)
    (hFrame : firstMatch (fun s => s == frame_id) m.sensor_frame_ = some i) :
    wrenchAtSensorPoint (forceTorqueCB m frame_id w) end_effector =
      some (mul6 (m.calibration_matrix_.getD i default) (wrenchMsgToEigen w)) := by
  have hlenS : i < m.sensor_frame_.length := firstMatch_lt_length _ _ _ hFrame
  have hlenW : i < m.measured_wrench_.length := by
    obtain ⟨h1, h2, h3, h4, h5⟩ := hWF
    omega
  have hidx : (forceTorqueCB m frame_id w).manager_index_ = m.manager_index_ := by
    unfold forceTorqueCB
    rw [hFrame]
  have hmeas : (forceTorqueCB m frame_id w).measured_wrench_ =
      m.measured_wrench_.set i (wrenchEigenToKDL
        (mul6 (m.calibration_matrix_.getD i default) (wrenchMsgToEigen w))) := by
    unfold forceTorqueCB
    rw [hFrame]
  have hg : getIndex (forceTorqueCB m frame_id w) end_effector = some i := by
    unfold getIndex at hEE ⊢
    rw [hidx]
    exact hEE
  rw [wrenchAtSensorPoint_some (forceTorqueCB m frame_id w) end_effector i hg, hmeas,
    getD_set_self default m.measured_wrench_ i _ hlenW, eigen_kdl_eigen]

/-- C4 witness: the round-trip theorem evaluated on the concrete
one-channel manager with the identity calibration and the raw sample
(1,2,3,4,5,6). -/
theorem C4_calibration_roundtrip_witness :
    wrenchAtSensorPoint (forceTorqueCB mW "left_sensor" wSample) "left_arm" =
      some (mul6 (mW.calibration_matrix_.getD 0 default) (wrenchMsgToEigen wSample)) :=
  C4_calibration_roundtrip mW "left_arm" "left_sensor" wSample 0
    ⟨rfl, rfl, rfl, rfl, rfl⟩ rfl rfl

/-- C5: wrenchAtGrippingPoint fails exactly on unregistered names and
otherwise returns the channel's static transform applied to the same
cached calibrated wrench that wrenchAtSensorPoint returns, also
publishing that transformed wrench tagged with the gripping frame. -/
theorem C5_gripping_point (m : WrenchManager) (end_effector : String) :
    (getIndex m end_effector = none → wrenchAtGrippingPoint m end_effector = none) ∧
    (∀ arm, getIndex m end_effector = some arm →
      wrenchAtSensorPoint m end_effector =
        some (wrenchKDLToEigen (m.measured_wrench_.getD arm default)) ∧
      wrenchAtGrippingPoint m end_effector =
        some (wrenchKDLToEigen (applyFrame
            (m.sensor_to_gripping_point_.getD arm default)
            (m.measured_wrench_.getD arm default)),
          { frame_id := m.gripping_frame_.getD arm "",
            wrench := wrenchKDLToMsg (applyFrame
              (m.sensor_to_gripping_point_.getD arm default)
              (m.measured_wrench_.getD arm default)) })) := by
  constructor
  · intro h
    unfold wrenchAtGrippingPoint
    rw [h]
  · intro arm h
    constructor
    · unfold wrenchAtSensorPoint
      rw [h]
    · unfold wrenchAtGrippingPoint
      rw [h]

/-- C5 witness: the gripping-point theorem evaluated on the concrete
one-channel manager, both for an unknown name and for the registered
one. -/
theorem C5_gripping_point_witness :
    wrenchAtGrippingPoint mW "nobody" = none ∧
    wrenchAtSensorPoint mW "left_arm" =
      some (wrenchKDLToEigen (mW.measured_wrench_.getD 0 default)) ∧
    wrenchAtGrippingPoint mW "left_arm" =
      some (wrenchKDLToEigen (applyFrame
          (mW.sensor_to_gripping_point_.getD 0 default)
          (mW.measured_wrench_.getD 0 default)),
        { frame_id := mW.gripping_frame_.getD 0 "",
          wrench := wrenchKDLToMsg (applyFrame
            (mW.sensor_to_gripping_point_.getD 0 default)
            (mW.measured_wrench_.getD 0 default)) }) := by
  refine ⟨(C5_gripping_point mW "nobody").1 rfl, ?_⟩
  exact (C5_gripping_point mW "left_arm").2 0 rfl

/-- C6: registering an end-effector name that is already registered
fails and leaves the whole manager state unchanged. -/
theorem C6_duplicate_registration (m : WrenchManager) (tf : ℕ → Option Frame)
    (calib : Option MatrixXd)
    (end_effector sensor_frame gripping_point_frame sensor_topic : String)
    (h : (getIndex m end_effector).isSome = true) :
    initializeWrenchComm m tf calib end_effector sensor_frame gripping_point_frame
      sensor_topic = (false, m) := by
  unfold initializeWrenchComm
  rw [if_pos h]

/-- C6 witness: re-registering the already registered name of the
concrete one-channel manager. -/
theorem C6_duplicate_registration_witness :
    initializeWrenchComm mW (fun _ => some Frame.identity) (some id6) "left_arm"
      "s" "g" "t" = (false, mW) :=
  C6_duplicate_registration mW (fun _ => some Frame.identity) (some id6) "left_arm"
    "s" "g" "t" rfl

/-- C7: a missing calibration matrix, or one whose shape is not exactly
6x6, always makes registration fail with the manager unchanged (no
partial channel state is retained). -/
theorem C7_calibration_gate (m : WrenchManager) (tf : ℕ → Option Frame)
    (calib : Option MatrixXd)
    (end_effector sensor_frame gripping_point_frame sensor_topic : String)
    (h : calib = none ∨ ∃ C, calib = some C ∧ (C.rows ≠ 6 ∨ C.cols ≠ 6)) :
    initializeWrenchComm m tf calib end_effector sensor_frame gripping_point_frame
      sensor_topic = (false, m) := by
  unfold initializeWrenchComm
  by_cases hd : (getIndex m end_effector).isSome
  · rw [if_pos hd]
  · rw [if_neg hd]
    cases htf : (tryTF tf m.max_tf_attempts_.toNat 0).1 with
    | none => rfl
    | some F =>
      show registerChannel m calib end_effector sensor_frame gripping_point_frame F =
        (false, m)
      rcases h with h | ⟨C, hC, hbad⟩
      · rw [h]
        rfl
      · rw [hC]
        simp only [registerChannel]
        rw [if_pos (Or.symm hbad)]

/-- C7 witness: the calibration gate rejecting a missing matrix and the
5x6, 6x5 and 0x0 shapes on the fresh manager. -/
theorem C7_calibration_gate_witness :
    initializeWrenchComm emptyWM (fun _ => some Frame.identity) none
      "a" "s" "g" "t" = (false, emptyWM) ∧
    initializeWrenchComm emptyWM (fun _ => some Frame.identity) (some mat56)
      "a" "s" "g" "t" = (false, emptyWM) ∧
    initializeWrenchComm emptyWM (fun _ => some Frame.identity) (some mat65)
      "a" "s" "g" "t" = (false, emptyWM) ∧
    initializeWrenchComm emptyWM (fun _ => some Frame.identity) (some mat00)
      "a" "s" "g" "t" = (false, emptyWM) :=
  ⟨C7_calibration_gate emptyWM _ none "a" "s" "g" "t" (Or.inl rfl),
   C7_calibration_gate emptyWM _ (some mat56) "a" "s" "g" "t"
     (Or.inr ⟨mat56, rfl, Or.inl (by decide)⟩),
   C7_calibration_gate emptyWM _ (some mat65) "a" "s" "g" "t"
     (Or.inr ⟨mat65, rfl, Or.inr (by decide)⟩),
   C7_calibration_gate emptyWM _ (some mat00) "a" "s" "g" "t"
     (Or.inr ⟨mat00, rfl, Or.inl (by decide)⟩)⟩

lemma tryTF_congr (tf tf' : ℕ → Option Frame) :
    ∀ fuel k, (∀ j, j < fuel → tf (k + j) = tf' (k + j)) →
      tryTF tf fuel k = tryTF tf' fuel k := by
  intro fuel
  induction fuel with
  | zero => intro k _; rfl
  | succ fuel ih =>
    intro k h
    have h0 : tf k = tf' k := by
      have := h 0 (by omega)
      simpa using this
    unfold tryTF
    rw [h0]
    cases tf' k with
    | some F => rfl
    | none =>
      rw [ih (k + 1) (fun j hj => by
        have h2 := h (j + 1) (by omega)
        have he : k + (j + 1) = k + 1 + j := by omega
        rw [he] at h2
        exact h2)]

lemma tryTF_none (tf : ℕ → Option Frame) :
    ∀ fuel k, (∀ j, j < fuel → tf (k + j) = none) → tryTF tf fuel k = (none, fuel) := by
  intro fuel
  induction fuel with
  | zero => intro k _; rfl
  | succ fuel ih =>
    intro k h
    have h0 : tf k = none := by
      have := h 0 (by omega)
      simpa using this
    unfold tryTF
    rw [h0, ih (k + 1) (fun j hj => by
      have h2 := h (j + 1) (by omega)
      have he : k + (j + 1) = k + 1 + j := by omega
      rw [he] at h2
      exact h2)]

lemma tryTF_first (tf : ℕ → Option Frame) :
    ∀ fuel k j F, j < fuel → tf (k + j) = some F →
      (∀ j2, j2 < j → tf (k + j2) = none) → (tryTF tf fuel k).1 = some F := by
  intro fuel
  induction fuel with
  | zero => intro k j F hj _ _; omega
  | succ fuel ih =>
    intro k j F hj hsome hnone
    unfold tryTF
    cases j with
    | zero =>
      rw [show tf k = some F from by simpa using hsome]
    | succ j2 =>
      have h0 : tf k = none := by
        have := hnone 0 (by omega)
        simpa using this
      rw [h0]
      exact ih (k + 1) j2 F (by omega)
        (by
          have he : k + (j2 + 1) = k + 1 + j2 := by omega
          rw [he] at hsome
          exact hsome)
        (fun j3 h3 => by
          have h4 := hnone (j3 + 1) (by omega)
          have he : k + (j3 + 1) = k + 1 + j3 := by omega
          rw [he] at h4
          exact h4)

/-- C8: transform resolution consults the Frame Resolver for at most
max_tf_attempts_ attempts (the constructor defaults this bound to 5
when the parameter is missing); registration fails when every attempt
within the bound fails, and when some attempt succeeds the registration
proceeds past the transform gate with the first successful resolution. -/
theorem C8_bounded_tf_retry :
    (initWM none).max_tf_attempts_ = 5 ∧
    (∀ (m : WrenchManager) (tf tf' : ℕ → Option Frame) calib ee sf gf topic,
      (∀ j, j < m.max_tf_attempts_.toNat → tf j = tf' j) →
      initializeWrenchComm m tf calib ee sf gf topic =
        initializeWrenchComm m tf' calib ee sf gf topic) ∧
    (∀ (m : WrenchManager) (tf : ℕ → Option Frame) calib ee sf gf topic,
      (∀ j, j < m.max_tf_attempts_.toNat → tf j = none) →
      initializeWrenchComm m tf calib ee sf gf topic = (false, m)) ∧
    (∀ (m : WrenchManager) (tf : ℕ → Option Frame) calib ee sf gf topic k F,
      getIndex m ee = none → k < m.max_tf_attempts_.toNat → tf k = some F →
      (∀ j, j < k → tf j = none) →
      initializeWrenchComm m tf calib ee sf gf topic =
        registerChannel m calib ee sf gf F) := by
  refine ⟨rfl, ?_, ?_, ?_⟩
  · intro m tf tf' calib ee sf gf topic h
    unfold initializeWrenchComm
    rw [tryTF_congr tf tf' m.max_tf_attempts_.toNat 0
      (fun j hj => by simpa using h j hj)]
  · intro m tf calib ee sf gf topic h
    unfold initializeWrenchComm
    by_cases hd : (getIndex m ee).isSome
    · rw [if_pos hd]
    · rw [if_neg hd, tryTF_none tf m.max_tf_attempts_.toNat 0
        (fun j hj => by simpa using h j hj)]
  · intro m tf calib ee sf gf topic k F hEE hk hsome hnone
    unfold initializeWrenchComm
    rw [if_neg (by rw [hEE]; simp)]
    rw [tryTF_first tf m.max_tf_attempts_.toNat 0 k F hk
      (by simpa using hsome) (fun j hj => by simpa using hnone j hj)]

/-- C8 witness: the retry theorem evaluated on the fresh manager (bound
5): an always-failing resolver fails registration, and a resolver
succeeding on its first attempt proceeds to the registration tail. -/
theorem C8_bounded_tf_retry_witness :
    initializeWrenchComm emptyWM (fun _ => none) (some id6) "a" "s" "g" "t" =
      (false, emptyWM) ∧
    initializeWrenchComm emptyWM (fun _ => some Frame.identity) (some id6)
      "a" "s" "g" "t" =
      registerChannel emptyWM (some id6) "a" "s" "g" Frame.identity :=
  ⟨C8_bounded_tf_retry.2.2.1 emptyWM (fun _ => none) (some id6) "a" "s" "g" "t"
     (fun _ _ => rfl),
   C8_bounded_tf_retry.2.2.2 emptyWM (fun _ => some Frame.identity) (some id6)
     "a" "s" "g" "t" 0 Frame.identity rfl (by decide) rfl
     (fun j hj => absurd hj (by omega))⟩

end gct
